import Mathlib

/-!
Verification of the websocket Responses transport of the `agents-openai`
package: a shallow embedding, in Lean, of the connection lifecycle code in
`openaiResponsesModel.ts` (`OpenAIResponsesWSModel`), the connection class in
`responsesWebSocketConnection.ts`, and the header/query merge utilities in
`responsesTransportUtils.ts`, followed by theorems about the embedded code.

Modelling conventions: promises and `await` points are replaced by explicit
outcome scripts (what each awaited step produced); thrown JavaScript values
are an explicit error type; JavaScript objects are insertion-ordered
association lists with last-write-wins assignment.
-/

namespace AgentsWS

/-! ## Error model

`responsesWebSocketConnection.ts` defines `ResponsesWebSocketInternalError`
with a closed set of codes; other thrown values in the websocket path are
plain `Error`s (with a `name` and a `message`), the SDK abort error
`OpenAI.APIUserAbortError`, wrapper `Error`s carrying a `cause`, or non-Error
values. -/

/-- The `ResponsesWebSocketInternalErrorCode` union
(`responsesWebSocketConnection.ts` lines 10-13). -/
inductive InternalErrorCode where
  | connection_closed_before_opening
  | connection_closed_before_terminal_response_event
  | socket_not_open
deriving DecidableEq, Repr

/-- The message each `ResponsesWebSocketInternalError` is constructed with in
the source (`waitForOpen`, the read loop, and `send`). -/
def InternalErrorCode.message : InternalErrorCode → String
  | .connection_closed_before_opening =>
      "Responses websocket connection closed before opening."
  | .connection_closed_before_terminal_response_event =>
      "Responses websocket connection closed before a terminal response event."
  | .socket_not_open => "Responses websocket is not open."

/-- A thrown JavaScript value, as the websocket path distinguishes them:
`ResponsesWebSocketInternalError`, `OpenAI.APIUserAbortError`, a plain
`Error` with a `name` and `message`, an `Error` with a `cause` (used for the
no-event wrapper), or a thrown value that is not an `Error` instance. -/
inductive JSError where
  | internalError (code : InternalErrorCode)
  | apiUserAbort
  | error (name message : String)
  | wrapped (message : String) (cause : JSError)
  | nonError
deriving DecidableEq, Repr

/-- The `message` property of a thrown value (empty for a non-Error). -/
def JSError.message : JSError → String
  | .internalError code => code.message
  | .apiUserAbort => "Request was aborted."
  | .error _ message => message
  | .wrapped message _ => message
  | .nonError => ""

/-- The `name` property of a thrown value. -/
def JSError.name : JSError → String
  | .internalError _ => "ResponsesWebSocketInternalError"
  | .apiUserAbort => "APIUserAbortError"
  | .error name _ => name
  | .wrapped _ _ => "Error"
  | .nonError => ""

/-- Whether the value is an `Error` instance (everything here but `nonError`). -/
def JSError.isErrorInstance : JSError → Bool
  | .nonError => false
  | _ => true

/-- Source `shouldWrapNoEventWebSocketError` (`responsesWebSocketConnection.ts`
lines 115-132): internal errors with the two connection-closed codes, or
plain errors carrying the corresponding messages. -/
def shouldWrapNoEventWebSocketError (e : JSError) : Bool :=
  match e with
  | .internalError code =>
      code = .connection_closed_before_opening ||
        code = .connection_closed_before_terminal_response_event
  | _ =>
      if !e.isErrorInstance then false
      else
        e.message == "Responses websocket connection closed before opening." ||
          e.message ==
            "Responses websocket connection closed before a terminal response event."

/-- Source `isWebSocketNotOpenError` (`responsesWebSocketConnection.ts` lines
134-159): the internal `socket_not_open` code, the matching message, a
native `InvalidStateError`, or the `ws` library's send-race message. -/
def isWebSocketNotOpenError (e : JSError) : Bool :=
  match e with
  | .internalError code => code = .socket_not_open
  | _ =>
      if !e.isErrorInstance then false
      else if e.message == "Responses websocket is not open." then true
      else if e.name == "InvalidStateError" then true
      else e.message.startsWith "WebSocket is not open: readyState "

/-! ## Send phase

`sendSerializedFrame` inside `#iterWebSocketResponseEvents`
(`openaiResponsesModel.ts` lines 2369-2388): try the send; on a
"not open" class error, reconnect once and resend; any other first-send
error, and any resend error, propagates. The outcomes of the awaited steps
(the two possible sends and the reconnect) are given as a script. -/

/-- Outcome of one `connection.send(serializedFrame)` call. -/
inductive SendOutcome where
  | ok
  | fail (e : JSError)
deriving DecidableEq, Repr

/-- Script of the awaited steps `sendSerializedFrame` can take: the first
send, the (at most one) `#reconnectWebSocketConnection`, and the resend on
the fresh connection. -/
structure SendScript where
  firstSend : SendOutcome
  reconnect : Except JSError Unit
  secondSend : SendOutcome
deriving Repr

/-- Result of running `sendSerializedFrame`: the propagated error (if any),
how many `send` calls were performed, and how many reconnects. -/
structure SendResult where
  outcome : Except JSError Unit
  sendCount : Nat
  reconnectCount : Nat
deriving Repr

/-- Source `sendSerializedFrame` (`openaiResponsesModel.ts` lines 2369-2388),
executed against a script of step outcomes. -/
def sendSerializedFrame (s : SendScript) : SendResult :=
  match s.firstSend with
  | .ok => { outcome := .ok (), sendCount := 1, reconnectCount := 0 }
  | .fail e =>
      if !isWebSocketNotOpenError e then
        { outcome := .error e, sendCount := 1, reconnectCount := 0 }
      else
        match s.reconnect with
        | .error e' => { outcome := .error e', sendCount := 1, reconnectCount := 1 }
        | .ok _ =>
            match s.secondSend with
            | .ok => { outcome := .ok (), sendCount := 2, reconnectCount := 1 }
            | .fail e' =>
                { outcome := .error e', sendCount := 2, reconnectCount := 1 }

/-- C3 -- If the first send of a request's frame fails with a "not open"
class of error, exactly one reconnect-and-resend is performed; if the resend
fails again, that error propagates with no third send attempt; and a
first-send failure that is not a "not open" class error propagates
immediately with no reconnect. -/
theorem C3_single_reconnect_on_stale_send (s : SendScript) (e : JSError) :
    (s.firstSend = .fail e → isWebSocketNotOpenError e = true →
      (sendSerializedFrame s).reconnectCount = 1 ∧
        (sendSerializedFrame s).sendCount ≤ 2 ∧
        (∀ e', s.reconnect = .ok () → s.secondSend = .fail e' →
          (sendSerializedFrame s).outcome = .error e' ∧
            (sendSerializedFrame s).sendCount = 2)) ∧
    (s.firstSend = .fail e → isWebSocketNotOpenError e = false →
      (sendSerializedFrame s).outcome = .error e ∧
        (sendSerializedFrame s).reconnectCount = 0 ∧
        (sendSerializedFrame s).sendCount = 1) := by
  constructor
  · intro hfail hopen
    refine ⟨?_, ?_, ?_⟩
    · simp [sendSerializedFrame, hfail, hopen]
      cases s.reconnect with
      | error e' => simp
      | ok u => cases s.secondSend <;> simp
    · simp [sendSerializedFrame, hfail, hopen]
      cases s.reconnect with
      | error e' => simp
      | ok u => cases s.secondSend <;> simp
    · intro e' hrec hsecond
      simp [sendSerializedFrame, hfail, hopen, hrec, hsecond]
  · intro hfail hopen
    simp [sendSerializedFrame, hfail, hopen]

/-- Witness for C3: a concrete script whose first send fails with the
internal `socket_not_open` error and whose resend also fails. -/
theorem C3_single_reconnect_on_stale_send_witness :
    (sendSerializedFrame
        { firstSend := .fail (.internalError .socket_not_open),
          reconnect := .ok (),
          secondSend := .fail (.error "Error" "boom") }).outcome =
        .error (.error "Error" "boom") ∧
      (sendSerializedFrame
          { firstSend := .fail (.internalError .socket_not_open),
            reconnect := .ok (),
            secondSend := .fail (.error "Error" "boom") }).sendCount = 2 :=
  (C3_single_reconnect_on_stale_send
      { firstSend := .fail (.internalError .socket_not_open),
        reconnect := .ok (),
        secondSend := .fail (.error "Error" "boom") }
      (.internalError .socket_not_open)).1 rfl (by decide)
    |>.2.2 (.error "Error" "boom") rfl rfl

/-! ## Terminal event classification and the frame-read loop

`#iterWebSocketResponseEvents` (`openaiResponsesModel.ts` lines 2333-2466)
drives one websocket request: acquire the request lock, prepare and ensure a
connection, send the frame, then loop reading frames until a terminal event,
with a catch handler that wraps "no event yet" failures and a finally block
that decides whether to drop the cached connection. The awaited steps are
given as scripts: a setup outcome, a send script, and the list of frame-read
results. -/

/-- A decoded inbound payload. Only the `type` field (`payload.type` when it
is a string) drives the control flow modelled here; the rest of the JSON
payload is irrelevant to the verified properties. -/
structure Payload where
  eventType : Option String
deriving DecidableEq, Repr

/-- Source `TERMINAL_RESPONSES_STREAM_EVENT_TYPES` (`openaiResponsesModel.ts` lines
1836-1841). -/
def TERMINAL_RESPONSES_STREAM_EVENT_TYPES : List String :=
  ["response.completed", "response.failed", "response.incomplete",
    "response.error"]

/-- Source `isTerminalResponsesStreamEventType` (`openaiResponsesModel.ts` lines
1843-1850). -/
def isTerminalResponsesStreamEventType : Option String → Bool
  | some eventType => TERMINAL_RESPONSES_STREAM_EVENT_TYPES.contains eventType
  | none => false

/-- Result of one `#nextWebSocketFrame` await inside the read loop: a frame
payload (already decoded from text and parsed), the `null` no-more-frames
sentinel, or a thrown error (socket error, frame-read timeout, abort). -/
inductive FrameRead where
  | frame (payload : Payload)
  | closedNull
  | err (e : JSError)
deriving DecidableEq, Repr

/-- The "may have been accepted" error thrown when a reused connection
closes post-send before any response event (`openaiResponsesModel.ts` lines
2403-2405). -/
def mayHaveBeenAcceptedError : JSError :=
  .error "Error"
    "Responses websocket connection closed after sending a request on a reused connection before any response events were received. The request may have been accepted, so the SDK will not automatically retry this websocket request."

/-- The error thrown for an application-level `error` frame
(`openaiResponsesModel.ts` lines 2420-2425). The source interpolates the
serialized payload into the message; the payload body is not modelled, so
only the fixed message prefix appears here. -/
def responsesWebSocketErrorEvent : JSError :=
  .error "Error" "Responses websocket error: "

/-- How the read loop ended: returned after yielding a terminal event, threw,
or the script ran out (the real loop would still be awaiting a frame). -/
inductive LoopExit where
  | finished
  | threw (e : JSError)
  | ranOut
deriving DecidableEq, Repr

/-- State carried out of the read loop: the yielded events, how the loop
ended, and the two flags consulted by the catch handler and the finally
block. -/
structure LoopResult where
  yielded : List Payload
  exit : LoopExit
  receivedAnyEvent : Bool
  sawTerminalResponseEvent : Bool
deriving Repr

/-- The `while (true)` frame-read loop (`openaiResponsesModel.ts` lines
2390-2441), with `reused` the `reusedConnectionForCurrentAttempt` flag and
accumulators for `receivedAnyEvent`, `sawTerminalResponseEvent`, and the
yielded events. -/
def readLoop (reused : Bool) :
    List FrameRead → Bool → Bool → List Payload → LoopResult
  | [], received, saw, acc =>
      { yielded := acc.reverse, exit := .ranOut, receivedAnyEvent := received,
        sawTerminalResponseEvent := saw }
  | .err e :: _, received, saw, acc =>
      { yielded := acc.reverse, exit := .threw e, receivedAnyEvent := received,
        sawTerminalResponseEvent := saw }
  | .closedNull :: _, received, saw, acc =>
      if !received && reused then
        { yielded := acc.reverse, exit := .threw mayHaveBeenAcceptedError,
          receivedAnyEvent := true, sawTerminalResponseEvent := saw }
      else
        { yielded := acc.reverse,
          exit := .threw
            (.internalError .connection_closed_before_terminal_response_event),
          receivedAnyEvent := received, sawTerminalResponseEvent := saw }
  | .frame p :: rest, received, saw, acc =>
      if p.eventType == some "error" then
        { yielded := acc.reverse, exit := .threw responsesWebSocketErrorEvent,
          receivedAnyEvent := true, sawTerminalResponseEvent := saw }
      else if isTerminalResponsesStreamEventType p.eventType then
        { yielded := (p :: acc).reverse, exit := .finished,
          receivedAnyEvent := true, sawTerminalResponseEvent := true }
      else
        readLoop reused rest true saw (p :: acc)

/-- Message of the no-event wrapper error (`openaiResponsesModel.ts` lines
2448-2450). -/
def noEventWrapMessage : String :=
  "Responses websocket connection closed before any response events were received. The feature may not be enabled for this account or model yet."

/-- Whether a thrown value is an `OpenAI.APIUserAbortError` instance. -/
def JSError.isAPIUserAbortError : JSError → Bool
  | .apiUserAbort => true
  | _ => false

/-- The catch handler of `#iterWebSocketResponseEvents`
(`openaiResponsesModel.ts` lines 2442-2456): wrap the error, with the
original attached as `cause`, only when no event was received, the error is
not an abort, and `shouldWrapNoEventWebSocketError` recognizes it. -/
def applyNoEventWrap (receivedAnyEvent : Bool) (e : JSError) : JSError :=
  if !receivedAnyEvent && !e.isAPIUserAbortError &&
      shouldWrapNoEventWebSocketError e then
    .wrapped noEventWrapMessage e
  else e

/-- The finally-block drop decision (`openaiResponsesModel.ts` lines
2458-2459): drop unless a terminal response event was seen and connection
reuse is enabled. -/
def shouldDropConnection (sawTerminalResponseEvent reuseConnection : Bool) :
    Bool :=
  !sawTerminalResponseEvent || !reuseConnection

/-- Outcome of the pre-send phase (`#prepareWebSocketRequest` +
`#ensureWebSocketConnection` + the abort checks between them): success with
the `reused` flag returned by ensure, or a thrown error. -/
inductive SetupOutcome where
  | ok (reused : Bool)
  | err (e : JSError)
deriving DecidableEq, Repr

/-- Observable result of one `#iterWebSocketResponseEvents` run: the events
yielded to the consumer, the exit after the catch handler, whether the
finally block dropped the cached connection, and the send/reconnect counts. -/
structure IterRun where
  events : List Payload
  exit : LoopExit
  connectionDropped : Bool
  sendCount : Nat
  reconnectCount : Nat
deriving Repr

/-- Application of the catch handler to the loop exit: a thrown error passes
through `applyNoEventWrap`; a normal return is untouched. -/
def wrapExit (receivedAnyEvent : Bool) : LoopExit → LoopExit
  | .threw e => .threw (applyNoEventWrap receivedAnyEvent e)
  | other => other

/-- Source `#iterWebSocketResponseEvents` (`openaiResponsesModel.ts` lines
2333-2466) against scripts for its awaited steps. After a reconnect inside
`sendSerializedFrame`, `setActiveConnection` records the fresh connection's
`reused = false` (reconnect always drops the cache first, so
`#ensureWebSocketConnection` cannot return a reused connection there). -/
def iterWebSocketResponseEvents (reuseConnection : Bool)
    (setup : SetupOutcome) (send : SendScript) (frames : List FrameRead) :
    IterRun :=
  match setup with
  | .err e =>
      { events := [], exit := .threw (applyNoEventWrap false e),
        connectionDropped := shouldDropConnection false reuseConnection,
        sendCount := 0, reconnectCount := 0 }
  | .ok reused =>
      let sr := sendSerializedFrame send
      match sr.outcome with
      | .error e =>
          { events := [], exit := .threw (applyNoEventWrap false e),
            connectionDropped := shouldDropConnection false reuseConnection,
            sendCount := sr.sendCount, reconnectCount := sr.reconnectCount }
      | .ok _ =>
          let reusedNow := if sr.reconnectCount > 0 then false else reused
          let lr := readLoop reusedNow frames false false []
          { events := lr.yielded,
            exit := wrapExit lr.receivedAnyEvent lr.exit,
            connectionDropped :=
              shouldDropConnection lr.sawTerminalResponseEvent reuseConnection,
            sendCount := sr.sendCount, reconnectCount := sr.reconnectCount }

/-- The read loop finishes exactly when it records a terminal response
event: starting from `saw = false`, the returned `sawTerminalResponseEvent`
is `true` iff the exit is `finished`. -/
theorem readLoop_saw_iff_finished (reused : Bool) (frames : List FrameRead)
    (received : Bool) (acc : List Payload) :
    ((readLoop reused frames received false acc).sawTerminalResponseEvent
        = true)
      ↔ (readLoop reused frames received false acc).exit = .finished := by
  induction frames generalizing received acc with
  | nil => simp [readLoop]
  | cons head rest ih =>
      cases head with
      | err e => simp [readLoop]
      | closedNull =>
          by_cases h : (!received && reused) = true <;> simp [readLoop, h]
      | frame p =>
          by_cases herr : (p.eventType == some "error") = true
          · simp [readLoop, herr]
          · by_cases hterm :
                isTerminalResponsesStreamEventType p.eventType = true
            · simp [readLoop, herr, hterm]
            · simpa [readLoop, herr, hterm] using ih true (p :: acc)

/-- C1 (counterexample) -- The claim says a request whose server returned a
`failed` terminal type never leaves the connection cached for reuse. On the
code, a run whose only response frame is a `response.failed` terminal event,
with connection reuse enabled, ends with the connection kept (not dropped):
the finally block keeps the connection after any terminal response event. -/
theorem C1_failed_terminal_keeps_connection :
    (iterWebSocketResponseEvents true (.ok true)
        { firstSend := .ok, reconnect := .ok (), secondSend := .ok }
        [.frame { eventType := some "response.failed" }]).connectionDropped
        = false ∧
      (iterWebSocketResponseEvents true (.ok true)
          { firstSend := .ok, reconnect := .ok (), secondSend := .ok }
          [.frame { eventType := some "response.failed" }]).exit
          = .finished := by
  constructor <;> rfl

/-- C1 (amended) -- After every websocket request, the cached connection is
kept (not dropped) if and only if connection reuse is enabled and the wire
exchange ended with a terminal response event of any of the four terminal
types (`response.completed`, `response.failed`, `response.incomplete`,
`response.error`), i.e. the run exited the read loop normally; in every
other outcome (error, abort, or reuse disabled) the connection is closed and
evicted. -/
theorem C1_connection_kept_iff_terminal_and_reuse (reuseConnection : Bool)
    (setup : SetupOutcome) (send : SendScript) (frames : List FrameRead) :
    (iterWebSocketResponseEvents reuseConnection setup send
          frames).connectionDropped = false
      ↔ (reuseConnection = true ∧
          (iterWebSocketResponseEvents reuseConnection setup send
              frames).exit = .finished) := by
  have loopPhase : ∀ (b : Bool),
      shouldDropConnection
          (readLoop b frames false false []).sawTerminalResponseEvent
          reuseConnection = false
        ↔ (reuseConnection = true ∧
            wrapExit (readLoop b frames false false []).receivedAnyEvent
              (readLoop b frames false false []).exit = .finished) := by
    intro b
    have hsaw := readLoop_saw_iff_finished b frames false []
    rcases hlr : readLoop b frames false false [] with ⟨y, ex, rec, saw⟩
    rw [hlr] at hsaw
    simp only at hsaw
    cases ex with
    | finished =>
        have : saw = true := hsaw.mpr rfl
        subst this
        cases reuseConnection <;> simp [shouldDropConnection, wrapExit]
    | threw e =>
        have : saw = false := by
          cases h : saw
          · rfl
          · exact absurd (hsaw.mp h) (by simp)
        subst this
        cases reuseConnection <;> simp [shouldDropConnection, wrapExit]
    | ranOut =>
        have : saw = false := by
          cases h : saw
          · rfl
          · exact absurd (hsaw.mp h) (by simp)
        subst this
        cases reuseConnection <;> simp [shouldDropConnection, wrapExit]
  cases setup with
  | err e =>
      simp [iterWebSocketResponseEvents, shouldDropConnection]
  | ok reused =>
      cases houtcome : (sendSerializedFrame send).outcome with
      | error e =>
          simp [iterWebSocketResponseEvents, houtcome, shouldDropConnection]
      | ok u =>
          simp only [iterWebSocketResponseEvents, houtcome]
          exact loopPhase _

/-- C2 -- If a reused connection closes after the request frame was sent but
before any event of that request was received (the first frame read yields
the `null` no-more-frames sentinel), the call fails with the distinct "may
have been accepted" error, that error is not wrapped into the generic
no-event wrapper (it surfaces as the plain error itself and the wrapper
predicate rejects it), no event is yielded, and exactly one frame send was
performed for the whole logical request. -/
theorem C2_no_replay_after_post_send_close (reuseConnection : Bool)
    (send : SendScript) (rest : List FrameRead)
    (hsend : send.firstSend = .ok) :
    (iterWebSocketResponseEvents reuseConnection (.ok true) send
          (.closedNull :: rest)).exit = .threw mayHaveBeenAcceptedError ∧
      shouldWrapNoEventWebSocketError mayHaveBeenAcceptedError = false ∧
      (iterWebSocketResponseEvents reuseConnection (.ok true) send
          (.closedNull :: rest)).sendCount = 1 ∧
      (iterWebSocketResponseEvents reuseConnection (.ok true) send
          (.closedNull :: rest)).events = [] := by
  have hsr : sendSerializedFrame send =
      { outcome := .ok (), sendCount := 1, reconnectCount := 0 } := by
    simp [sendSerializedFrame, hsend]
  refine ⟨?_, by decide, ?_, ?_⟩ <;>
    simp [iterWebSocketResponseEvents, hsr, readLoop, wrapExit,
      applyNoEventWrap, mayHaveBeenAcceptedError,
      JSError.isAPIUserAbortError, shouldWrapNoEventWebSocketError,
      JSError.isErrorInstance, JSError.message]

/-- Witness for C2: the concrete run in which the first send succeeds on a
reused connection and the socket then closes before any frame. -/
theorem C2_no_replay_after_post_send_close_witness :
    (iterWebSocketResponseEvents true (.ok true)
          { firstSend := .ok, reconnect := .ok (), secondSend := .ok }
          [.closedNull]).exit = .threw mayHaveBeenAcceptedError ∧
      (iterWebSocketResponseEvents true (.ok true)
          { firstSend := .ok, reconnect := .ok (), secondSend := .ok }
          [.closedNull]).sendCount = 1 := by
  have h := C2_no_replay_after_post_send_close true
    { firstSend := .ok, reconnect := .ok (), secondSend := .ok } [] rfl
  exact ⟨h.1, h.2.2.1⟩

/-- C4 -- A websocket request that fails before any event was received with
a connection-closed-before-opening condition (setup failure) or a
connection-closed-before-terminal-response-event condition (fresh,
non-reused connection closing before the first frame) surfaces the single
"feature may not be enabled" wrapper error with the original error attached
as its `cause`; a caller-initiated abort error, whether thrown during setup
or during the first frame read, is never wrapped and passes through as the
abort error itself. -/
theorem C4_no_event_wrap_and_abort_passthrough (reuseConnection : Bool)
    (send : SendScript) (rest : List FrameRead) (code : InternalErrorCode)
    (hcode : code = .connection_closed_before_opening ∨
      code = .connection_closed_before_terminal_response_event) :
    ((iterWebSocketResponseEvents reuseConnection (.err (.internalError code))
          send rest).exit
        = .threw (.wrapped noEventWrapMessage (.internalError code))) ∧
      (send.firstSend = .ok →
        (iterWebSocketResponseEvents reuseConnection (.ok false) send
            (.closedNull :: rest)).exit
          = .threw (.wrapped noEventWrapMessage
              (.internalError
                .connection_closed_before_terminal_response_event))) ∧
      ((iterWebSocketResponseEvents reuseConnection (.err .apiUserAbort) send
            rest).exit = .threw .apiUserAbort) ∧
      (send.firstSend = .ok →
        (iterWebSocketResponseEvents reuseConnection (.ok false) send
            (.err .apiUserAbort :: rest)).exit = .threw .apiUserAbort) := by
  refine ⟨?_, ?_, ?_, ?_⟩
  · rcases hcode with h | h <;>
      simp [h, iterWebSocketResponseEvents, applyNoEventWrap,
        JSError.isAPIUserAbortError, shouldWrapNoEventWebSocketError]
  · intro hsend
    have hsr : sendSerializedFrame send =
        { outcome := .ok (), sendCount := 1, reconnectCount := 0 } := by
      simp [sendSerializedFrame, hsend]
    simp [iterWebSocketResponseEvents, hsr, readLoop, wrapExit,
      applyNoEventWrap, JSError.isAPIUserAbortError,
      shouldWrapNoEventWebSocketError]
  · simp [iterWebSocketResponseEvents, applyNoEventWrap,
      JSError.isAPIUserAbortError]
  · intro hsend
    have hsr : sendSerializedFrame send =
        { outcome := .ok (), sendCount := 1, reconnectCount := 0 } := by
      simp [sendSerializedFrame, hsend]
    simp [iterWebSocketResponseEvents, hsr, readLoop, wrapExit,
      applyNoEventWrap, JSError.isAPIUserAbortError]

/-- Witness for C4: the closed-before-opening setup failure and the abort
cases at concrete scripts. -/
theorem C4_no_event_wrap_and_abort_passthrough_witness :
    (iterWebSocketResponseEvents true
          (.err (.internalError .connection_closed_before_opening))
          { firstSend := .ok, reconnect := .ok (), secondSend := .ok }
          []).exit
        = .threw (.wrapped noEventWrapMessage
            (.internalError .connection_closed_before_opening)) ∧
      (iterWebSocketResponseEvents true (.ok false)
          { firstSend := .ok, reconnect := .ok (), secondSend := .ok }
          [.err .apiUserAbort]).exit = .threw .apiUserAbort := by
  have h := C4_no_event_wrap_and_abort_passthrough true
    { firstSend := .ok, reconnect := .ok (), secondSend := .ok } []
    .connection_closed_before_opening (Or.inl rfl)
  exact ⟨h.1, h.2.2.2 rfl⟩

/-! ## Request serializer lock

`#acquireWebSocketRequestLock` (`openaiResponsesModel.ts` lines 2703-2746)
chains each request onto `#wsRequestLock` as a FIFO mutex: the request's own
slot (`ownLock`) is resolved by a `releaseLock` closure guarded by a
`released` flag, the chain is advanced to `previousLock.then(() => ownLock)`
before waiting, and on an acquisition failure (queue-wait timeout or abort)
the catch block calls `releaseLock()` before rethrowing. On success the
returned `releaseLock` is invoked by the finally block of
`#iterWebSocketResponseEvents` regardless of the request's outcome. -/

/-- The state of one request's release closure: the `released` flag and how
many times `resolveOwnLock` has been called (the chain slot is freed, and
the next queued request may proceed, exactly when this count is positive). -/
structure LockCell where
  released : Bool
  resolveCount : Nat
deriving DecidableEq, Repr

/-- The `releaseLock` closure (`openaiResponsesModel.ts` lines 2721-2727):
a no-op once `released` is set, otherwise it sets the flag and resolves
`ownLock`. -/
def releaseLock (c : LockCell) : LockCell :=
  if c.released then c
  else { released := true, resolveCount := c.resolveCount + 1 }

/-- Outcome of awaiting the previous lock holder under the queue-wait
timeout and the abort signal (`openaiResponsesModel.ts` lines 2731-2745). -/
inductive AcquireOutcome where
  | acquired
  | queueTimeout
  | aborted
deriving DecidableEq, Repr

/-- Outcome of the request that ran (or would have run) inside the slot. -/
inductive RequestOutcome where
  | success
  | failure
  | abort
deriving DecidableEq, Repr

/-- Source `#acquireWebSocketRequestLock`'s effect on its own lock cell: on success
the cell is handed to the caller untouched; on a queue timeout or abort the
catch block releases it before rethrowing. The boolean records whether the
acquisition returned (`true`) or threw (`false`). -/
def acquireWebSocketRequestLock (a : AcquireOutcome) (c : LockCell) :
    LockCell × Bool :=
  match a with
  | .acquired => (c, true)
  | .queueTimeout => (releaseLock c, false)
  | .aborted => (releaseLock c, false)

/-- One request's full lock lifecycle: acquire, and if acquisition
succeeded, run the request to any outcome and let the finally block of
`#iterWebSocketResponseEvents` (line 2463) call `releaseLock`. The request
outcome is a parameter precisely because the finally block ignores it. -/
def runSerializedRequest (a : AcquireOutcome) (_r : RequestOutcome) :
    LockCell :=
  let c0 : LockCell := { released := false, resolveCount := 0 }
  match acquireWebSocketRequestLock a c0 with
  | (c, false) => c
  | (c, true) => releaseLock c

/-- C5 -- Acquiring the request-serializer slot always releases the slot
regardless of outcome: whether acquisition fails (queue-wait timeout or
abort) or the request later succeeds, fails, or aborts, the request's chain
slot ends released with `ownLock` resolved exactly once, so the next queued
request can proceed; and calling the release callback again on an already
released cell has no further effect. -/
theorem C5_lock_released_exactly_once (a : AcquireOutcome)
    (r : RequestOutcome) :
    (runSerializedRequest a r).released = true ∧
      (runSerializedRequest a r).resolveCount = 1 ∧
      releaseLock (runSerializedRequest a r) = runSerializedRequest a r := by
  cases a <;> cases r <;>
    simp [runSerializedRequest, acquireWebSocketRequestLock, releaseLock]

/-! ## JavaScript objects and the outbound frame

JavaScript objects are modelled as insertion-ordered association lists;
property assignment and object spread overwrite an existing key in place and
append a new key at the end, exactly as JS object semantics do. -/

/-- A JSON-ish JavaScript value, as far as the verified properties need to
distinguish values. -/
inductive JsonVal where
  | str (s : String)
  | num (n : Int)
  | bool (b : Bool)
  | null
  | undefined
  | arr (elems : List JsonVal)
  | obj (fields : List (String × JsonVal))

/-- A JavaScript object: insertion-ordered fields. -/
abbrev JsObject := List (String × JsonVal)

/-- Property assignment / spread of one key: overwrite in place, else
append. -/
def objSet (o : JsObject) (k : String) (v : JsonVal) : JsObject :=
  match o with
  | [] => [(k, v)]
  | (k', v') :: rest =>
      if k' = k then (k', v) :: rest else (k', v') :: objSet rest k v

/-- Object spread `\x7b...o, ...o'\x7d`: assign each field of `o'` over `o`
in order. -/
def objMerge (o o' : JsObject) : JsObject :=
  o'.foldl (fun acc kv => objSet acc kv.1 kv.2) o

/-- Property read. -/
def objGet (o : JsObject) (k : String) : Option JsonVal :=
  match o with
  | [] => none
  | (k', v) :: rest => if k' = k then some v else objGet rest k

theorem objGet_objSet_same (o : JsObject) (k : String) (v : JsonVal) :
    objGet (objSet o k v) k = some v := by
  induction o with
  | nil => simp [objSet, objGet]
  | cons head rest ih =>
      by_cases h : head.1 = k <;> simp [objSet, objGet, h, ih]

theorem objGet_objSet_other (o : JsObject) (k k' : String) (v : JsonVal)
    (h : k' ≠ k) : objGet (objSet o k' v) k = objGet o k := by
  induction o with
  | nil => simp [objSet, objGet, h]
  | cons head rest ih =>
      by_cases hh : head.1 = k'
      · simp [objSet, objGet, hh, h]
      · simp [objSet, objGet, hh, ih]

/-- The `extra_body` merge and stream re-assertion tail of
`_buildResponsesCreateRequest` (`openaiResponsesModel.ts` lines 2064-2072):
caller overrides are spread over the built request data, then
`requestData.stream = stream` keeps the transport mode aligned. -/
def applyTransportExtraBody (requestData : JsObject)
    (extraBody : Option JsObject) (stream : Bool) : JsObject :=
  let merged :=
    match extraBody with
    | some body => objMerge requestData body
    | none => requestData
  objSet merged "stream" (.bool stream)

/-- The outbound frame construction in `#prepareWebSocketRequest`
(`openaiResponsesModel.ts` lines 2483-2487): spread the request data, then
re-assert `type: 'response.create'` and `stream: true`. -/
def prepareWebSocketFrame (requestData : JsObject) : JsObject :=
  objSet (objSet requestData "type" (.str "response.create")) "stream"
    (.bool true)

/-- C6 -- For every built request, including one whose provider settings
carry an `extra_body` override containing conflicting `type` or `stream`
keys, the outbound websocket frame has `type = 'response.create'` and
`stream = true`: the overrides are merged into the request data, but the
frame construction re-asserts both keys after the merge. -/
theorem C6_frame_type_and_stream_forced (requestData : JsObject)
    (extraBody : Option JsObject) :
    objGet
        (prepareWebSocketFrame (applyTransportExtraBody requestData extraBody
          true)) "type" = some (.str "response.create") ∧
      objGet
        (prepareWebSocketFrame (applyTransportExtraBody requestData extraBody
          true)) "stream" = some (.bool true) := by
  constructor
  · unfold prepareWebSocketFrame
    rw [objGet_objSet_other _ _ _ _ (by decide)]
    exact objGet_objSet_same _ _ _
  · exact objGet_objSet_same _ _ _

/-! ## Item translation round trip for `function_call`

`getInputItems` encodes a protocol `function_call` item into a wire item
(`openaiResponsesModel.ts` lines 1196-1208) and `convertToOutputItem`
decodes a wire `function_call` back (lines 1596-1607). -/

/-- Keys of an object, in insertion order. -/
def objKeys (o : JsObject) : List String := o.map Prod.fst

theorem objSet_eq_append (o : JsObject) (k : String) (v : JsonVal)
    (h : k ∉ objKeys o) : objSet o k v = o ++ [(k, v)] := by
  induction o with
  | nil => simp [objSet]
  | cons head rest ih =>
      simp only [objKeys, List.map_cons, List.mem_cons] at h
      push_neg at h
      simp [objSet, Ne.symm h.1, ih (by simpa [objKeys] using h.2)]

theorem objMerge_eq_append (o o' : JsObject)
    (hdisj : ∀ k ∈ objKeys o', k ∉ objKeys o)
    (hnd : (objKeys o').Nodup) : objMerge o o' = o ++ o' := by
  induction o' generalizing o with
  | nil => simp [objMerge]
  | cons head rest ih =>
      simp only [objKeys, List.map_cons, List.nodup_cons] at hnd
      have hhead : head.1 ∉ objKeys o := by
        exact hdisj head.1 (by simp [objKeys])
      have step : objMerge o (head :: rest) =
          objMerge (o ++ [(head.1, head.2)]) rest := by
        simp [objMerge, objSet_eq_append o head.1 head.2 hhead]
      rw [step, ih (o ++ [(head.1, head.2)])]
      · simp
      · intro k hk
        have h1 : k ∉ objKeys o := hdisj k (by simp [objKeys] at hk ⊢; right; exact hk)
        have h2 : k ≠ head.1 := by
          intro h
          exact hnd.1 (by simpa [objKeys, h] using hk)
        simp only [objKeys, List.map_append, List.mem_append] at h1 ⊢
        push_neg
        refine ⟨h1, ?_⟩
        simp [h2]
      · exact hnd.2

theorem objGet_append_some (o o' : JsObject) (k : String) (v : JsonVal)
    (h : objGet o k = some v) : objGet (o ++ o') k = some v := by
  induction o with
  | nil => simp [objGet] at h
  | cons head rest ih =>
      by_cases hh : head.1 = k
      · simpa [objGet, hh] using h
      · simp only [objGet, hh, if_false] at h
        simpa [objGet, hh] using ih h

/-- The rest-destructuring `\x7b call_id, name, status, arguments: args,
...providerData \x7d = item` in `convertToOutputItem`: the named keys are
removed and every other field (including `id` and `type`) stays, in order. -/
def removeKeys (o : JsObject) (ks : List String) : JsObject :=
  o.filter (fun kv => !ks.contains kv.1)

/-- A protocol `function_call` item (`protocol.FunctionCallItem`): the
semantic fields and the opaque `providerData` bag. -/
structure FunctionCallItem where
  id : Option String
  callId : String
  name : String
  arguments : String
  status : Option String
  providerData : JsObject

/-- An optional string field as it appears on the wire object: `undefined`
when absent. -/
def encodeOptionalString : Option String → JsonVal
  | some s => .str s
  | none => .undefined

/-- Modelled from the spec: `camelOrSnakeToSnakeCase` lives in
`utils/providerData`, which is not part of the sources here; the spec
requires the opaque `providerData` bag to "round-trip losslessly through
one encode/decode cycle", so the normalization is modelled as the identity
on the bag. -/
def camelOrSnakeToSnakeCase (o : JsObject) : JsObject := o

/-- The `function_call` branch of `getInputItems`
(`openaiResponsesModel.ts` lines 1196-1208): the semantic fields in literal
order, then the normalized `providerData` bag spread over them. -/
def getInputItemsFunctionCall (item : FunctionCallItem) : JsObject :=
  objMerge
    [("id", encodeOptionalString item.id),
      ("type", .str "function_call"),
      ("name", .str item.name),
      ("call_id", .str item.callId),
      ("arguments", .str item.arguments),
      ("status", encodeOptionalString item.status)]
    (camelOrSnakeToSnakeCase item.providerData)

/-- The decoded form produced by the `function_call` branch of
`convertToOutputItem`: each semantic field read off the wire object, plus
the rest of the object as the new `providerData`. -/
structure DecodedFunctionCall where
  type : String
  id : Option JsonVal
  callId : Option JsonVal
  name : Option JsonVal
  arguments : Option JsonVal
  status : Option JsonVal
  providerData : JsObject

/-- The `function_call` branch of `convertToOutputItem`
(`openaiResponsesModel.ts` lines 1596-1607). -/
def convertToOutputItemFunctionCall (item : JsObject) : DecodedFunctionCall :=
  { type := "function_call"
    id := objGet item "id"
    callId := objGet item "call_id"
    name := objGet item "name"
    arguments := objGet item "arguments"
    status := objGet item "status"
    providerData :=
      removeKeys item ["call_id", "name", "status", "arguments"] }

/-- C7 -- For every protocol item of type `function_call` whose opaque
`providerData` bag holds only keys the translator does not understand
(distinct from the semantic wire field names, with no duplicates),
translating it to a wire item with `getInputItems` and translating that wire
item back with `convertToOutputItem` reproduces the semantic fields (`id`,
`callId`, `name`, `arguments`, `status`) exactly, and every `providerData`
key survives unchanged, with its value, through the encode/decode cycle. -/
theorem C7_function_call_round_trip (item : FunctionCallItem)
    (hdisj : ∀ k ∈ objKeys item.providerData,
      k ∉ ["id", "type", "name", "call_id", "arguments", "status"])
    (hnd : (objKeys item.providerData).Nodup) :
    (convertToOutputItemFunctionCall (getInputItemsFunctionCall item)).id
        = some (encodeOptionalString item.id) ∧
      (convertToOutputItemFunctionCall
          (getInputItemsFunctionCall item)).callId
        = some (.str item.callId) ∧
      (convertToOutputItemFunctionCall (getInputItemsFunctionCall item)).name
        = some (.str item.name) ∧
      (convertToOutputItemFunctionCall
          (getInputItemsFunctionCall item)).arguments
        = some (.str item.arguments) ∧
      (convertToOutputItemFunctionCall
          (getInputItemsFunctionCall item)).status
        = some (encodeOptionalString item.status) ∧
      ∀ k ∈ objKeys item.providerData,
        objGet (convertToOutputItemFunctionCall
            (getInputItemsFunctionCall item)).providerData k
          = objGet item.providerData k := by
  have hbase : objKeys
      [("id", encodeOptionalString item.id),
        ("type", JsonVal.str "function_call"),
        ("name", JsonVal.str item.name),
        ("call_id", JsonVal.str item.callId),
        ("arguments", JsonVal.str item.arguments),
        ("status", encodeOptionalString item.status)]
      = ["id", "type", "name", "call_id", "arguments", "status"] := rfl
  have hmerge : getInputItemsFunctionCall item =
      [("id", encodeOptionalString item.id),
        ("type", JsonVal.str "function_call"),
        ("name", JsonVal.str item.name),
        ("call_id", JsonVal.str item.callId),
        ("arguments", JsonVal.str item.arguments),
        ("status", encodeOptionalString item.status)] ++ item.providerData := by
    unfold getInputItemsFunctionCall camelOrSnakeToSnakeCase
    exact objMerge_eq_append _ _ (by rw [hbase]; exact hdisj) hnd
  refine ⟨?_, ?_, ?_, ?_, ?_, ?_⟩
  · simp only [convertToOutputItemFunctionCall, hmerge]
    exact objGet_append_some _ _ _ _ (by simp [objGet])
  · simp only [convertToOutputItemFunctionCall, hmerge]
    exact objGet_append_some _ _ _ _ (by simp [objGet])
  · simp only [convertToOutputItemFunctionCall, hmerge]
    exact objGet_append_some _ _ _ _ (by simp [objGet])
  · simp only [convertToOutputItemFunctionCall, hmerge]
    exact objGet_append_some _ _ _ _ (by simp [objGet])
  · simp only [convertToOutputItemFunctionCall, hmerge]
    exact objGet_append_some _ _ _ _ (by simp [objGet])
  · intro k hk
    have hkeep : removeKeys item.providerData
        ["call_id", "name", "status", "arguments"] = item.providerData := by
      apply List.filter_eq_self.mpr
      intro kv hkv
      have := hdisj kv.1 (by simp [objKeys]; exact ⟨kv.2, hkv⟩)
      simp only [List.mem_cons, List.not_mem_nil] at this
      push_neg at this
      simp [List.contains, this.2.2.2.1, this.2.2.1, this.2.2.2.2.2.1,
        this.2.2.2.2.1]
    have hne : k ≠ "id" ∧ k ≠ "type" := by
      have := hdisj k hk
      simp only [List.mem_cons, List.not_mem_nil] at this
      push_neg at this
      exact ⟨this.1, this.2.1⟩
    simp only [convertToOutputItemFunctionCall, hmerge, removeKeys,
      List.filter_append]
    rw [show (List.filter
        (fun kv => !(["call_id", "name", "status",
          "arguments"] : List String).contains kv.1)
        [("id", encodeOptionalString item.id),
          ("type", JsonVal.str "function_call"),
          ("name", JsonVal.str item.name),
          ("call_id", JsonVal.str item.callId),
          ("arguments", JsonVal.str item.arguments),
          ("status", encodeOptionalString item.status)])
        = [("id", encodeOptionalString item.id),
            ("type", JsonVal.str "function_call")] from rfl]
    show objGet (("id", encodeOptionalString item.id) ::
        ("type", JsonVal.str "function_call") ::
        List.filter _ item.providerData) k = _
    rw [show List.filter
        (fun kv => !(["call_id", "name", "status",
          "arguments"] : List String).contains kv.1) item.providerData
        = item.providerData from hkeep]
    simp [objGet, Ne.symm hne.1, Ne.symm hne.2, hne.1, hne.2]

/-- Witness for C7: a concrete `function_call` item with an unknown
`providerData` key round-trips. -/
theorem C7_function_call_round_trip_witness :
    (convertToOutputItemFunctionCall (getInputItemsFunctionCall
          { id := some "fc_1", callId := "call_1", name := "get_weather",
            arguments := "Tokyo", status := some "completed",
            providerData := [("foo", .str "bar")] })).callId
        = some (.str "call_1") ∧
      objGet (convertToOutputItemFunctionCall (getInputItemsFunctionCall
          { id := some "fc_1", callId := "call_1", name := "get_weather",
            arguments := "Tokyo", status := some "completed",
            providerData := [("foo", .str "bar")] })).providerData "foo"
        = some (.str "bar") := by
  have h := C7_function_call_round_trip
    { id := some "fc_1", callId := "call_1", name := "get_weather",
      arguments := "Tokyo", status := some "completed",
      providerData := [("foo", .str "bar")] }
    (by intro k hk; simp [objKeys] at hk; subst hk; decide)
    (by simp [objKeys])
  refine ⟨h.2.1, ?_⟩
  have := h.2.2.2.2.2 "foo" (by simp [objKeys])
  simpa [objGet] using this

/-! ## Header accumulator and layered handshake-header merge

`responsesTransportUtils.ts` builds the websocket handshake headers through
a `HeaderAccumulator` keyed by lowercase header name: `parseHeaderInput`
splits a layer into set entries and `null` unsets, and
`applyHeadersToAccumulator` applies all unsets (delete + block) before all
sets, skipping a set whose lowercase name is blocked unless the layer is
applied with `allowBlockedOverride`. `#mergeWebSocketHeaders`
(`openaiResponsesModel.ts` lines 2492-2561) folds the auth, client-default
and constant layers with `allowBlockedOverride = false` and the per-request
`extraHeaders` layer last with `allowBlockedOverride = true`. -/

/-- One value in a plain-record header layer: a string, an explicit `null`
unset, or `undefined` (skipped). -/
inductive HeaderValue where
  | str (s : String)
  | null
  | undefined
deriving DecidableEq, Repr

/-- A plain-record header layer, in property order. -/
abbrev HeaderRecord := List (String × HeaderValue)

/-- The `ParsedHeaderInput` shape (`responsesTransportUtils.ts` lines
89-92). -/
structure ParsedHeaderInput where
  entries : List (String × String)
  unsetLowercaseNames : List String
deriving DecidableEq, Repr

/-- Source `parseHeaderInput` for the plain-record shape
(`responsesTransportUtils.ts` lines 147-156): string values are collected
as entries in record order, `null` values record their lowercase names as
unsets, `undefined` values are skipped. -/
def parseHeaderInput : HeaderRecord → ParsedHeaderInput
  | [] => { entries := [], unsetLowercaseNames := [] }
  | kv :: rest =>
      let parsed := parseHeaderInput rest
      match kv.2 with
      | .undefined => parsed
      | .null =>
          { parsed with
            unsetLowercaseNames := kv.1.toLower :: parsed.unsetLowercaseNames }
      | .str v => { parsed with entries := (kv.1, v) :: parsed.entries }

/-- Lookup in an insertion-ordered string-keyed map (a JS `Map`). -/
def assocGet {α : Type} (m : List (String × α)) (k : String) : Option α :=
  match m with
  | [] => none
  | p :: rest => if p.1 = k then some p.2 else assocGet rest k

/-- Source `Map.set`: overwrite in place, else append. -/
def assocSet {α : Type} (m : List (String × α)) (k : String) (v : α) :
    List (String × α) :=
  match m with
  | [] => [(k, v)]
  | p :: rest => if p.1 = k then (p.1, v) :: rest else p :: assocSet rest k v

/-- Source `Map.delete`. -/
def assocDelete {α : Type} (m : List (String × α)) (k : String) :
    List (String × α) :=
  m.filter (fun p => p.1 != k)

/-- Source `Set.add` for a JS `Set` kept as an insertion-ordered list. -/
def setAdd (s : List String) (n : String) : List String :=
  if s.contains n then s else s ++ [n]

/-- Source `Set.delete`. -/
def setDelete (s : List String) (n : String) : List String :=
  s.filter (fun m => m != n)

/-- The `HeaderAccumulator` shape (`responsesTransportUtils.ts` lines
9-12): blocked lowercase names and values keyed by lowercase name. -/
structure HeaderAccumulator where
  blockedLowercaseNames : List String
  valuesByLowercaseName : List (String × (String × String))
deriving DecidableEq, Repr

/-- Source `createHeaderAccumulator` (`responsesTransportUtils.ts` lines
178-183). -/
def createHeaderAccumulator : HeaderAccumulator :=
  { blockedLowercaseNames := [], valuesByLowercaseName := [] }

/-- Processing of one unset name (`responsesTransportUtils.ts` lines
193-196): delete the value and block the name. -/
def applyUnset (acc : HeaderAccumulator) (n : String) : HeaderAccumulator :=
  { valuesByLowercaseName := assocDelete acc.valuesByLowercaseName n,
    blockedLowercaseNames := setAdd acc.blockedLowercaseNames n }

/-- Processing of one set entry (`responsesTransportUtils.ts` lines
198-211): skip when the lowercase name is blocked and the layer may not
override; otherwise store the value and, for an override layer, clear the
block. -/
def applyEntry (allowBlockedOverride : Bool) (acc : HeaderAccumulator)
    (kv : String × String) : HeaderAccumulator :=
  if acc.blockedLowercaseNames.contains kv.1.toLower &&
      !allowBlockedOverride then
    acc
  else
    { valuesByLowercaseName :=
        assocSet acc.valuesByLowercaseName kv.1.toLower (kv.1, kv.2),
      blockedLowercaseNames :=
        if allowBlockedOverride then
          setDelete acc.blockedLowercaseNames kv.1.toLower
        else acc.blockedLowercaseNames }

/-- Source `applyHeadersToAccumulator` (`responsesTransportUtils.ts` lines
185-212): unsets first, then entries. -/
def applyHeadersToAccumulator (acc : HeaderAccumulator)
    (headers : HeaderRecord) (allowBlockedOverride : Bool) :
    HeaderAccumulator :=
  let parsed := parseHeaderInput headers
  (parsed.entries.foldl (applyEntry allowBlockedOverride)
    (parsed.unsetLowercaseNames.foldl applyUnset acc))

/-- Source `headerAccumulatorToRecord` (`responsesTransportUtils.ts` lines
214-222): the stored (original-case key, value) pairs. -/
def headerAccumulatorToRecord (acc : HeaderAccumulator) :
    List (String × String) :=
  acc.valuesByLowercaseName.map Prod.snd

/-- A fold of non-override layers, as `#mergeWebSocketHeaders` performs for
every layer before the per-request `extraHeaders` layer. -/
def applyNonOverrideLayers (acc : HeaderAccumulator)
    (layers : List HeaderRecord) : HeaderAccumulator :=
  layers.foldl (fun a l => applyHeadersToAccumulator a l false) acc

theorem assocGet_assocSet_same {α : Type} (m : List (String × α))
    (k : String) (v : α) : assocGet (assocSet m k v) k = some v := by
  induction m with
  | nil => simp [assocSet, assocGet]
  | cons p rest ih =>
      by_cases h : p.1 = k <;> simp [assocSet, assocGet, h, ih]

theorem assocGet_assocSet_ne {α : Type} (m : List (String × α))
    (k k' : String) (v : α) (h : k' ≠ k) :
    assocGet (assocSet m k' v) k = assocGet m k := by
  induction m with
  | nil => simp [assocSet, assocGet, h]
  | cons p rest ih =>
      by_cases hh : p.1 = k'
      · simp [assocSet, assocGet, hh, h]
      · simp [assocSet, assocGet, hh, ih]

theorem assocGet_assocDelete_self {α : Type} (m : List (String × α))
    (k : String) : assocGet (assocDelete m k) k = none := by
  induction m with
  | nil => simp [assocDelete, assocGet]
  | cons p rest ih =>
      by_cases h : p.1 = k
      · simpa [assocDelete, assocGet, h] using ih
      · simpa [assocDelete, assocGet, h] using ih

theorem assocGet_assocDelete_none {α : Type} (m : List (String × α))
    (k j : String) (h : assocGet m k = none) :
    assocGet (assocDelete m j) k = none := by
  induction m with
  | nil => simp [assocDelete, assocGet]
  | cons p rest ih =>
      by_cases hpk : p.1 = k
      · simp [assocGet, hpk] at h
      · simp only [assocGet, hpk, if_false] at h
        by_cases hpj : p.1 = j
        · simpa [assocDelete, assocGet, hpj] using ih h
        · simpa [assocDelete, assocGet, hpj, hpk] using ih h

theorem assocSet_snd_mem {α : Type} (m : List (String × α)) (k : String)
    (v : α) : v ∈ (assocSet m k v).map Prod.snd := by
  induction m with
  | nil => simp [assocSet]
  | cons p rest ih =>
      by_cases h : p.1 = k <;> simp [assocSet, h, ih]

theorem assocGet_eq_none_iff {α : Type} (m : List (String × α))
    (k : String) : assocGet m k = none ↔ k ∉ m.map Prod.fst := by
  induction m with
  | nil => simp [assocGet]
  | cons p rest ih =>
      by_cases h : p.1 = k
      · simp [assocGet, h]
      · simp [assocGet, h, ih, Ne.symm h]

theorem setAdd_contains_self (s : List String) (n : String) :
    (setAdd s n).contains n = true := by
  unfold setAdd
  by_cases h : n ∈ s <;> simp [h]

theorem setAdd_contains_mono (s : List String) (m n : String)
    (h : s.contains m = true) : (setAdd s n).contains m = true := by
  unfold setAdd
  have hm : m ∈ s := by simpa using h
  by_cases hc : n ∈ s <;> simp [hc, hm]

theorem setDelete_contains_of_ne (s : List String) (m n : String)
    (hne : m ≠ n) (h : s.contains m = true) :
    (setDelete s n).contains m = true := by
  have hm : m ∈ s := by simpa using h
  simp [setDelete, List.mem_filter, hm, hne]

/-- The state "header with lowercase name `n` has been unset": the name is
blocked and no value is stored under it. -/
def HeaderUnset (n : String) (acc : HeaderAccumulator) : Prop :=
  acc.blockedLowercaseNames.contains n = true ∧
    assocGet acc.valuesByLowercaseName n = none

theorem applyUnset_establishes (acc : HeaderAccumulator) (n : String) :
    HeaderUnset n (applyUnset acc n) :=
  ⟨setAdd_contains_self _ _, assocGet_assocDelete_self _ _⟩

theorem applyUnset_preserves (acc : HeaderAccumulator) (n m : String)
    (h : HeaderUnset n acc) : HeaderUnset n (applyUnset acc m) :=
  ⟨setAdd_contains_mono _ _ _ h.1, assocGet_assocDelete_none _ _ _ h.2⟩

theorem applyEntry_preserves (acc : HeaderAccumulator) (n : String)
    (kv : String × String) (h : HeaderUnset n acc) :
    HeaderUnset n (applyEntry false acc kv) := by
  unfold applyEntry
  by_cases hlk : kv.1.toLower = n
  · simp only [hlk, h.1, Bool.not_false, Bool.and_true, if_true]
    exact h
  · by_cases hb :
        acc.blockedLowercaseNames.contains kv.1.toLower = true
    · simp only [hb, Bool.not_false, Bool.and_true, if_true]
      exact h
    · simp only [hb, Bool.false_and, if_false]
      refine ⟨h.1, ?_⟩
      simp only [Bool.false_eq_true, if_false]
      exact (assocGet_assocSet_ne _ _ _ _ hlk).trans h.2

theorem unsetFold_preserves (names : List String) (acc : HeaderAccumulator)
    (n : String) (h : HeaderUnset n acc) :
    HeaderUnset n (names.foldl applyUnset acc) := by
  induction names generalizing acc with
  | nil => exact h
  | cons x rest ih => exact ih _ (applyUnset_preserves _ _ _ h)

theorem unsetFold_establishes : ∀ (names : List String)
    (acc : HeaderAccumulator) (n : String), n ∈ names →
    HeaderUnset n (names.foldl applyUnset acc)
  | [], _, _, h => absurd h (List.not_mem_nil _)
  | x :: rest, acc, n, h => by
      rw [List.foldl_cons]
      rcases List.mem_cons.mp h with h | h
      · subst h
        exact unsetFold_preserves rest (applyUnset acc n) n
          (applyUnset_establishes acc n)
      · exact unsetFold_establishes rest (applyUnset acc x) n h

theorem entryFold_preserves (entries : List (String × String))
    (acc : HeaderAccumulator) (n : String) (h : HeaderUnset n acc) :
    HeaderUnset n (entries.foldl (applyEntry false) acc) := by
  induction entries generalizing acc with
  | nil => exact h
  | cons kv rest ih => exact ih _ (applyEntry_preserves _ _ _ h)

theorem mem_parse_unsets : ∀ (L : HeaderRecord) (k0 : String),
    (k0, HeaderValue.null) ∈ L →
    k0.toLower ∈ (parseHeaderInput L).unsetLowercaseNames
  | [], _, h => absurd h (List.not_mem_nil _)
  | (key, value) :: rest, k0, h => by
      rcases List.mem_cons.mp h with heq | hmem
      · cases heq
        simp [parseHeaderInput]
      · have := mem_parse_unsets rest k0 hmem
        cases value <;> simp [parseHeaderInput, this]

theorem applyHeaders_establishes_unset (acc : HeaderAccumulator)
    (L : HeaderRecord) (k0 : String) (h : (k0, HeaderValue.null) ∈ L) :
    HeaderUnset k0.toLower (applyHeadersToAccumulator acc L false) := by
  unfold applyHeadersToAccumulator
  exact entryFold_preserves _ _ _
    (unsetFold_establishes _ _ _ (mem_parse_unsets L k0 h))

theorem applyHeaders_preserves_unset (acc : HeaderAccumulator)
    (M : HeaderRecord) (n : String) (h : HeaderUnset n acc) :
    HeaderUnset n (applyHeadersToAccumulator acc M false) := by
  unfold applyHeadersToAccumulator
  exact entryFold_preserves _ _ _ (unsetFold_preserves _ _ _ h)

theorem applyNonOverrideLayers_preserves_unset (acc : HeaderAccumulator)
    (layers : List HeaderRecord) (n : String) (h : HeaderUnset n acc) :
    HeaderUnset n (applyNonOverrideLayers acc layers) := by
  induction layers generalizing acc with
  | nil => exact h
  | cons M rest ih => exact ih _ (applyHeaders_preserves_unset _ _ _ h)

/-- Well-formedness of the accumulator: every stored value sits under the
lowercase form of its original-case key (true by construction). -/
def HeaderAccumulator.WF (acc : HeaderAccumulator) : Prop :=
  ∀ p ∈ acc.valuesByLowercaseName, p.2.1.toLower = p.1

theorem mem_assocSet {α : Type} (m : List (String × α)) (k : String) (v : α)
    (p : String × α) (h : p ∈ assocSet m k v) : p ∈ m ∨ p = (k, v) := by
  induction m with
  | nil => simpa [assocSet] using h
  | cons q rest ih =>
      by_cases hq : q.1 = k
      · simp only [assocSet, hq, if_true] at h
        rcases List.mem_cons.mp h with h | h
        · right
          exact h
        · left
          exact List.mem_cons_of_mem _ h
      · simp only [assocSet, hq, if_false] at h
        rcases List.mem_cons.mp h with h | h
        · left
          exact h ▸ List.mem_cons_self _ _
        · rcases ih h with h | h
          · left
            exact List.mem_cons_of_mem _ h
          · right
            exact h

theorem WF_applyUnset (acc : HeaderAccumulator) (n : String)
    (h : acc.WF) : (applyUnset acc n).WF := by
  intro p hp
  exact h p (List.mem_of_mem_filter hp)

theorem WF_applyEntry (acc : HeaderAccumulator) (b : Bool)
    (kv : String × String) (h : acc.WF) : (applyEntry b acc kv).WF := by
  by_cases hb :
      (acc.blockedLowercaseNames.contains kv.1.toLower && !b) = true
  · rw [applyEntry, if_pos hb]
    exact h
  · rw [applyEntry, if_neg hb]
    intro p hp
    rcases mem_assocSet acc.valuesByLowercaseName kv.1.toLower (kv.1, kv.2)
        p hp with hmem | heq
    · exact h p hmem
    · rw [heq]

theorem WF_applyHeaders (acc : HeaderAccumulator) (M : HeaderRecord)
    (b : Bool) (h : acc.WF) : (applyHeadersToAccumulator acc M b).WF := by
  unfold applyHeadersToAccumulator
  have hunsets : ∀ (names : List String) (a : HeaderAccumulator), a.WF →
      (names.foldl applyUnset a).WF := by
    intro names
    induction names with
    | nil => exact fun a ha => ha
    | cons x rest ih => exact fun a ha => ih _ (WF_applyUnset _ _ ha)
  have hentries : ∀ (entries : List (String × String))
      (a : HeaderAccumulator), a.WF →
      (entries.foldl (applyEntry b) a).WF := by
    intro entries
    induction entries with
    | nil => exact fun a ha => ha
    | cons kv rest ih => exact fun a ha => ih _ (WF_applyEntry _ _ _ ha)
  exact hentries _ _ (hunsets _ _ h)

theorem WF_applyNonOverrideLayers (acc : HeaderAccumulator)
    (layers : List HeaderRecord) (h : acc.WF) :
    (applyNonOverrideLayers acc layers).WF := by
  induction layers generalizing acc with
  | nil => exact h
  | cons M rest ih => exact ih _ (WF_applyHeaders _ _ _ h)

theorem record_absent_of_unset (acc : HeaderAccumulator) (n : String)
    (hwf : acc.WF) (h : assocGet acc.valuesByLowercaseName n = none) :
    ∀ kv ∈ headerAccumulatorToRecord acc, kv.1.toLower ≠ n := by
  intro kv hkv heq
  rcases List.mem_map.mp hkv with ⟨p, hp, hsnd⟩
  have hkey : p.1 = n := by
    rw [← hwf p hp, hsnd, heq]
  have : n ∉ acc.valuesByLowercaseName.map Prod.fst :=
    (assocGet_eq_none_iff _ _).mp h
  exact this (List.mem_map.mpr ⟨p, hp, hkey⟩)

/-- C8 -- Websocket handshake headers are merged in layers where a `null`
value in any layer unsets that header case-insensitively: after the layer
holding the `null` is applied (without blocked-override, as every layer
before the per-request one is), no header with that lowercase name appears
in the merged record, and the header stays absent through any further
non-override layers; and the later per-request layer (applied with
`allowBlockedOverride`, as `#mergeWebSocketHeaders` applies `extraHeaders`)
may re-set a header with that lowercase name, with the later layer's value
appearing in the merged record. -/
theorem C8_null_unsets_header_and_later_layer_resets
    (acc : HeaderAccumulator) (hwf : acc.WF) (L : HeaderRecord)
    (middles : List HeaderRecord) (k0 k1 v1 : String)
    (hnull : (k0, HeaderValue.null) ∈ L)
    (_hsame : k1.toLower = k0.toLower) :
    (∀ kv ∈ headerAccumulatorToRecord
        (applyHeadersToAccumulator acc L false),
      kv.1.toLower ≠ k0.toLower) ∧
      (∀ kv ∈ headerAccumulatorToRecord
          (applyNonOverrideLayers
            (applyHeadersToAccumulator acc L false) middles),
        kv.1.toLower ≠ k0.toLower) ∧
      (k1, v1) ∈ headerAccumulatorToRecord
        (applyHeadersToAccumulator
          (applyNonOverrideLayers
            (applyHeadersToAccumulator acc L false) middles)
          [(k1, .str v1)] true) := by
  have h1 : HeaderUnset k0.toLower (applyHeadersToAccumulator acc L false) :=
    applyHeaders_establishes_unset acc L k0 hnull
  have h2 : HeaderUnset k0.toLower
      (applyNonOverrideLayers (applyHeadersToAccumulator acc L false)
        middles) :=
    applyNonOverrideLayers_preserves_unset _ _ _ h1
  refine ⟨?_, ?_, ?_⟩
  · exact record_absent_of_unset _ _ (WF_applyHeaders _ _ _ hwf) h1.2
  · exact record_absent_of_unset _ _
      (WF_applyNonOverrideLayers _ _ (WF_applyHeaders _ _ _ hwf)) h2.2
  · show (k1, v1) ∈ headerAccumulatorToRecord
      (applyHeadersToAccumulator _ [(k1, .str v1)] true)
    unfold applyHeadersToAccumulator parseHeaderInput
    simp only [List.foldl_cons, List.foldl_nil]
    unfold applyEntry
    simp only [Bool.not_true, Bool.and_false, Bool.false_eq_true, if_false]
    exact assocSet_snd_mem _ _ _

/-- Witness for C8: the `x-api-key` header is unset by a `null` in the
first layer, a middle non-override layer cannot restore it, and the final
override layer re-sets it. -/
theorem C8_null_unsets_header_and_later_layer_resets_witness :
    (∀ kv ∈ headerAccumulatorToRecord
        (applyHeadersToAccumulator createHeaderAccumulator
          [("x-api-key", HeaderValue.null)] false),
      kv.1.toLower ≠ "x-api-key".toLower) ∧
      (∀ kv ∈ headerAccumulatorToRecord
          (applyNonOverrideLayers
            (applyHeadersToAccumulator createHeaderAccumulator
              [("x-api-key", HeaderValue.null)] false)
            [[("x-api-key", HeaderValue.str "middle")]]),
        kv.1.toLower ≠ "x-api-key".toLower) ∧
      ("x-api-key", "final") ∈ headerAccumulatorToRecord
        (applyHeadersToAccumulator
          (applyNonOverrideLayers
            (applyHeadersToAccumulator createHeaderAccumulator
              [("x-api-key", HeaderValue.null)] false)
            [[("x-api-key", HeaderValue.str "middle")]])
          [("x-api-key", .str "final")] true) :=
  C8_null_unsets_header_and_later_layer_resets createHeaderAccumulator
    (by intro p hp; cases hp) [("x-api-key", HeaderValue.null)]
    [[("x-api-key", HeaderValue.str "middle")]] "x-api-key" "x-api-key"
    "final" (List.mem_singleton.mpr rfl) rfl

/-! ## Query parameter merge for the websocket URL

`mergeQueryParamsIntoURL` (`responsesTransportUtils.ts` lines 262-286)
merges a query record into a URL's search params: for each non-undefined
key it first deletes every existing entry whose key is the key itself or a
bracket sub-key (`key[...]`), then appends the new value (strings directly,
arrays as `key[]`, nested records as `key[subkey]`, nothing for `null`).
`#prepareWebSocketURL` (`openaiResponsesModel.ts` lines 2563-2617) merges
the client default query, then the explicit websocket base URL's own query,
then the per-request extra query. -/

/-- A query value as `mergeQueryParamsIntoURL` distinguishes them. Other
primitives are serialized with `String(...)` and behave as `str`. -/
inductive QueryValue where
  | undefined
  | null
  | str (s : String)
  | arr (values : List QueryValue)
  | obj (fields : List (String × QueryValue))

/-- Source `URLSearchParams` content: ordered key/value pairs. -/
abbrev QueryParams := List (String × String)

mutual

/-- Source `appendQueryParamValue` (`responsesTransportUtils.ts` lines 235-260). -/
def appendQueryParamValue (params : QueryParams) (key : String) :
    QueryValue → QueryParams
  | .undefined => params
  | .null => params
  | .str s => params ++ [(key, s)]
  | .arr values => appendQueryArr params key values
  | .obj fields => appendQueryObj params key fields

/-- The array loop of `appendQueryParamValue`: each element under
`key[]`. -/
def appendQueryArr (params : QueryParams) (key : String) :
    List QueryValue → QueryParams
  | [] => params
  | v :: rest =>
      appendQueryArr (appendQueryParamValue params (key ++ "[]") v) key rest

/-- The nested-record loop of `appendQueryParamValue`: each field under
`key[subkey]`. -/
def appendQueryObj (params : QueryParams) (key : String) :
    List (String × QueryValue) → QueryParams
  | [] => params
  | (nk, nv) :: rest =>
      appendQueryObj
        (appendQueryParamValue params (key ++ "[" ++ nk ++ "]") nv) key rest

end

/-- The deletion predicate used by both `mergeQueryParamsIntoURL` (line
276) and the explicit-base-query pass of `#prepareWebSocketURL` (lines
2601-2608): the key itself or any bracket sub-key of it. -/
def queryKeyMatches (key existingKey : String) : Bool :=
  existingKey == key || existingKey.startsWith (key ++ "[")

/-- Deletion of every entry matching a top-level key. -/
def deleteQueryKey (params : QueryParams) (key : String) : QueryParams :=
  params.filter (fun p => !queryKeyMatches key p.1)

/-- Source `mergeQueryParamsIntoURL` (`responsesTransportUtils.ts` lines
262-286): skip `undefined` values; otherwise delete the key's existing
entries, then append (nothing for `null`). -/
def mergeQueryParamsIntoURL (params : QueryParams)
    (query : List (String × QueryValue)) : QueryParams :=
  query.foldl
    (fun ps kv =>
      match kv.2 with
      | .undefined => ps
      | .null => deleteQueryKey ps kv.1
      | v => appendQueryParamValue (deleteQueryKey ps kv.1) kv.1 v)
    params

/-- Source `key.slice(0, key.indexOf('['))` for keys holding a bracket, the key
itself otherwise (`openaiResponsesModel.ts` lines 2594-2598). -/
def topLevelQueryKey (key : String) : String := (key.splitOn "[").headD key

/-- The explicit-base-query pass of `#prepareWebSocketURL`
(`openaiResponsesModel.ts` lines 2592-2613): when the explicit websocket
base URL carried its own query, delete every entry whose top-level key that
query mentions, then append all of its entries. The source collects the
top-level keys into a `Set` first; folding the (idempotent, commuting)
deletions over the entries directly yields the same params. -/
def applyExplicitBaseQuery (params : QueryParams)
    (explicitBaseQuery : QueryParams) : QueryParams :=
  if explicitBaseQuery.isEmpty then params
  else
    (explicitBaseQuery.foldl
        (fun ps p => deleteQueryKey ps (topLevelQueryKey p.1)) params)
      ++ explicitBaseQuery

/-- The query-merging portion of `#prepareWebSocketURL`
(`openaiResponsesModel.ts` lines 2586-2614): client default query, then the
explicit base URL query, then the per-request extra query, over the base
URL's initial params. -/
def prepareWebSocketURLQuery (baseParams : QueryParams)
    (defaultQuery : Option (List (String × QueryValue)))
    (explicitBaseQuery : Option QueryParams)
    (extraQuery : Option (List (String × QueryValue))) : QueryParams :=
  let params :=
    match defaultQuery with
    | some q => mergeQueryParamsIntoURL baseParams q
    | none => baseParams
  let params2 :=
    match explicitBaseQuery with
    | some q => applyExplicitBaseQuery params q
    | none => params
  match extraQuery with
  | some q => mergeQueryParamsIntoURL params2 q
  | none => params2

theorem filter_after_delete_nil (params : QueryParams) (k : String) :
    (deleteQueryKey params k).filter (fun p => queryKeyMatches k p.1)
      = [] := by
  induction params with
  | nil => simp [deleteQueryKey]
  | cons p rest ih =>
      by_cases h : queryKeyMatches k p.1 = true
      · simpa [deleteQueryKey, h] using ih
      · simp only [Bool.not_eq_true] at h
        simpa [deleteQueryKey, List.filter_cons, h] using ih

/-- C9 -- When the per-request extra query supplies a value for a top-level
key, the final websocket URL query contains only the per-request value for
that key: whatever the base URL, the client default query, and the explicit
base URL query contributed under that key, including bracket-notation
sub-keys of it, is removed before the winning value is appended, so the
entries matching the key are exactly the one per-request pair. -/
theorem C9_per_request_query_value_wins (baseParams : QueryParams)
    (defaultQuery : Option (List (String × QueryValue)))
    (explicitBaseQuery : Option QueryParams) (k s : String) :
    (prepareWebSocketURLQuery baseParams defaultQuery explicitBaseQuery
          (some [(k, .str s)])).filter (fun p => queryKeyMatches k p.1)
      = [(k, s)] := by
  unfold prepareWebSocketURLQuery
  simp only [mergeQueryParamsIntoURL, List.foldl_cons, List.foldl_nil,
    appendQueryParamValue]
  rw [List.filter_append, filter_after_delete_nil]
  simp [queryKeyMatches]

/-! ## Connection frame buffer

`ResponsesWebSocketConnection` (`responsesWebSocketConnection.ts`) buffers
inbound frames (`#onMessage`, lines 349-359: deliver to a parked waiter if
any, else push), records socket errors (`#onError`, lines 361-377) and the
close (`#onClose`, lines 379-391), and serves frames one at a time
(`#nextFrameInternal`, lines 329-347: buffered frame first, then a recorded
error, then the `null` sentinel for a clean close, else park the caller). -/

/-- A raw websocket message payload. -/
abbrev WSMessage := String

/-- The connection's private state: the inbound frame buffer, the number of
parked waiters, the `closed` flag and the recorded error. -/
structure ConnState where
  messages : List WSMessage
  waiters : Nat
  closed : Bool
  error : Option JSError
deriving Repr

/-- What one `#nextFrameInternal` call produced. -/
inductive NextFrameResult where
  | frame (data : WSMessage)
  | sentinel
  | errored (e : JSError)
  | parked
deriving DecidableEq, Repr

/-- Source `#nextFrameInternal` (`responsesWebSocketConnection.ts` lines 329-347):
buffered frame first, then the recorded error, then the clean-close `null`
sentinel, otherwise park as a waiter. -/
def nextFrameInternal (s : ConnState) : NextFrameResult × ConnState :=
  match s.messages with
  | data :: rest => (.frame data, { s with messages := rest })
  | [] =>
      match s.error with
      | some e => (.errored e, s)
      | none =>
          if s.closed then (.sentinel, s)
          else (.parked, { s with waiters := s.waiters + 1 })

/-- Source `#onMessage` (`responsesWebSocketConnection.ts` lines 349-359): resolve
a parked waiter if any, else push onto the buffer. -/
def onMessage (s : ConnState) (data : WSMessage) : ConnState :=
  if s.waiters > 0 then { s with waiters := s.waiters - 1 }
  else { s with messages := s.messages ++ [data] }

/-- Source `#onError` (`responsesWebSocketConnection.ts` lines 361-377): record
the error and reject all parked waiters. -/
def onError (s : ConnState) (e : JSError) : ConnState :=
  { s with error := some e, waiters := 0 }

/-- Source `#onClose` (`responsesWebSocketConnection.ts` lines 379-391): mark
closed and flush all parked waiters (rejected with the recorded error if
one exists, resolved with the `null` sentinel otherwise). -/
def onClose (s : ConnState) : ConnState :=
  { s with closed := true, waiters := 0 }

/-- Repeated `#nextFrameInternal` calls until a non-frame result: the
buffered frames in order, then the first non-frame result. The fuel is the
buffer length, so the recursion consumes exactly the buffer. -/
def drainFramesAux : Nat → ConnState → List WSMessage × NextFrameResult
  | 0, s => ([], (nextFrameInternal s).1)
  | n + 1, s =>
      match nextFrameInternal s with
      | (.frame data, s') =>
          let rest := drainFramesAux n s'
          (data :: rest.1, rest.2)
      | (r, _) => ([], r)

/-- Drain the whole buffer, then one more read for the terminal result. -/
def drainFrames (s : ConnState) : List WSMessage × NextFrameResult :=
  drainFramesAux s.messages.length s

theorem foldl_onMessage_no_waiters (arrivals : List WSMessage)
    (ms : List WSMessage) (closed : Bool) (error : Option JSError) :
    arrivals.foldl onMessage
        { messages := ms, waiters := 0, closed := closed, error := error }
      = { messages := ms ++ arrivals, waiters := 0, closed := closed,
          error := error } := by
  induction arrivals generalizing ms with
  | nil => simp
  | cons a rest ih =>
      rw [List.foldl_cons]
      show rest.foldl onMessage
          { messages := ms ++ [a], waiters := 0, closed := closed,
            error := error } = _
      rw [ih (ms ++ [a])]
      simp

theorem drainFramesAux_closed (ms : List WSMessage) (error : Option JSError)
    (waiters : Nat) :
    drainFramesAux ms.length
        { messages := ms, waiters := waiters, closed := true,
          error := error }
      = (ms, match error with
          | some e => .errored e
          | none => .sentinel) := by
  induction ms with
  | nil => cases error <;> simp [drainFramesAux, nextFrameInternal]
  | cons data rest ih =>
      simp only [List.length_cons, drainFramesAux, nextFrameInternal]
      rw [ih]

/-- C10 -- Frames that arrived on a connection before it closed or errored
are still returned by `nextFrame` afterwards, in arrival order: starting
from any buffered backlog with no parked waiters, after further arrivals
followed by a clean close (respectively a socket error and then the close
event), draining returns the backlog plus the arrivals in order, and only
once the buffer is empty surfaces the `null` no-more-frames sentinel
(respectively the recorded error). -/
theorem C10_buffered_frames_survive_close (backlog arrivals : List WSMessage)
    (e : JSError) :
    drainFrames (onClose (arrivals.foldl onMessage
          { messages := backlog, waiters := 0, closed := false,
            error := none }))
        = (backlog ++ arrivals, .sentinel) ∧
      drainFrames (onClose (onError (arrivals.foldl onMessage
            { messages := backlog, waiters := 0, closed := false,
              error := none }) e))
        = (backlog ++ arrivals, .errored e) := by
  rw [foldl_onMessage_no_waiters]
  constructor
  · show drainFrames
        { messages := backlog ++ arrivals, waiters := 0, closed := true,
          error := none } = _
    unfold drainFrames
    exact drainFramesAux_closed (backlog ++ arrivals) none 0
  · show drainFrames
        { messages := backlog ++ arrivals, waiters := 0, closed := true,
          error := some e } = _
    unfold drainFrames
    exact drainFramesAux_closed (backlog ++ arrivals) (some e) 0

end AgentsWS
